import Mathlib

/-!
Verification of the tunnel lifecycle coordinator in `android/usque_android.go`
(package `usqueandroid`, the revision with per-family endpoint overrides and
the `useIPv6` preference).

The development has two layers:

* a pure layer embedding the package-level connection options
  (`customSNI`, `customEndpointV4`, `customEndpointV6`, `useIPv6`),
  the endpoint-selection logic inside `StartTunnel`, the synchronous
  portion of `StartTunnel`, and `AndroidTunDevice.WritePacket`;

* an interleaving layer: a small-step transition system over the shared
  `tunnelState` singleton (`running`, `cancel`, `inputChan`, `callback`)
  with atomic actions for each lock-protected critical section of
  `StartTunnel`, `StopTunnel`, and the background goroutine's exit path
  (`MaintainTunnel` returning, `tunDevice.Close()`, the locked
  `running = false` reset, and the `OnDisconnected` callback).
  Ghost fields (`cancelCalls`, `closeCount`, `resetCount`, `notifyCount`,
  `notifySawRunning`) record how often each side effect happened per run
  and what `IsRunning()` would have returned inside the disconnect callback.

External collaborators (`config.LoadConfig`, key/cert/TLS preparation,
`api.MaintainTunnel`) are out of scope per the specification; their
outcomes enter the model as parameters.
-/

set_option autoImplicit false

namespace UsqueAndroid

/-- The package-level connection-option variables:
`customSNI`, `customEndpointV4`, `customEndpointV6`, `useIPv6`. -/
structure ConnOptions where
  customSNI : String
  customEndpointV4 : String
  customEndpointV6 : String
  useIPv6 : Bool
deriving DecidableEq

/-- Initial values of the option variables (their Go initializers). -/
def initialOptions : ConnOptions :=
  { customSNI := "www.visa.cn", customEndpointV4 := "", customEndpointV6 := "", useIPv6 := false }

/-- `ResetConnectionOptions`: resets all connection options to defaults. -/
def resetConnectionOptions (_o : ConnOptions) : ConnOptions :=
  { customSNI := "www.visa.cn", customEndpointV4 := "", customEndpointV6 := "", useIPv6 := false }

/-- `GetSNI`: returns the current SNI setting. -/
def getSNI (o : ConnOptions) : String := o.customSNI

/-- `GetUseIPv6`: returns whether the IPv6 endpoint is preferred. -/
def getUseIPv6 (o : ConnOptions) : Bool := o.useIPv6

/-- The fields of the loaded profile (`config.AppConfig`) that endpoint
selection reads: the default addresses per family. -/
structure Profile where
  endpointV4 : String
  endpointV6 : String
deriving DecidableEq

/-- The endpoint-selection logic inside `StartTunnel` (the
`if useIPv6 { ... } else { ... }` block choosing `endpointIP`). -/
def resolveEndpointIP (o : ConnOptions) (p : Profile) : String :=
  if o.useIPv6 then
    if o.customEndpointV6 ≠ "" then o.customEndpointV6 else p.endpointV6
  else
    if o.customEndpointV4 ≠ "" then o.customEndpointV4 else p.endpointV4

/-- The resolved endpoint: the chosen address together with the port,
which `StartTunnel` hard-codes to 443 in the `net.UDPAddr` literal. -/
def resolveEndpoint (o : ConnOptions) (p : Profile) : String × Nat :=
  (resolveEndpointIP o p, 443)

/-- Modelled from the spec: the endpoint-resolution priority policy as the
specification words it, to be compared with the code's `resolveEndpoint`.
If `preferIPv6` is false, the custom IPv4 override is used when non-empty,
else the profile default IPv4 address; symmetrically for IPv6; the port is
fixed at 443. -/
def resolveEndpointSpec (o : ConnOptions) (p : Profile) : String × Nat :=
  if o.useIPv6 = false then
    ((if o.customEndpointV4 = "" then p.endpointV4 else o.customEndpointV4), 443)
  else
    ((if o.customEndpointV6 = "" then p.endpointV6 else o.customEndpointV6), 443)

/-- Result of the synchronous portion of `StartTunnel` after the
already-running check: either an error string returned to the caller, or
the resolved endpoint with which the background task is spawned. -/
inductive SyncResult where
  | err (msg : String)
  | ok (endpointIP : String) (port : Nat)
deriving DecidableEq

/-- Whether the synchronous portion failed. -/
def SyncResult.isErr : SyncResult → Bool
  | .err _ => true
  | .ok _ _ => false

/-- Outcomes of the external collaborators invoked by `StartTunnel`'s
synchronous portion, in source order: `config.LoadConfig`,
`GetEcPrivateKey`, `GetEcEndpointPublicKey`, `internal.GenerateCert`,
`api.PrepareTlsConfig`, `newAndroidTunDevice`. `none` means success. -/
structure ExtOutcomes where
  configErr : Option String
  privKeyErr : Option String
  pubKeyErr : Option String
  certErr : Option String
  tlsErr : Option String
  tunErr : Option String
deriving DecidableEq

/-- All external collaborators succeed. -/
def ExtOutcomes.allOk (e : ExtOutcomes) : Prop :=
  e.configErr = none ∧ e.privKeyErr = none ∧ e.pubKeyErr = none ∧
    e.certErr = none ∧ e.tlsErr = none ∧ e.tunErr = none

/-- An `ExtOutcomes` value with every collaborator succeeding. -/
def extAllOk : ExtOutcomes :=
  { configErr := none, privKeyErr := none, pubKeyErr := none,
    certErr := none, tlsErr := none, tunErr := none }

/-- The synchronous portion of `StartTunnel` after the already-running
check: the chain of early returns for collaborator failures, followed by
endpoint selection. Note that the endpoint-selection block itself has no
failure branch: whatever `resolveEndpointIP` yields (including the empty
string, which `net.ParseIP` maps to `nil`) is passed on. -/
def startTunnelSync (ext : ExtOutcomes) (o : ConnOptions) (p : Profile) : SyncResult :=
  match ext.configErr with
  | some e => .err ("Failed to load config: " ++ e)
  | none =>
  match ext.privKeyErr with
  | some e => .err ("Failed to get private key: " ++ e)
  | none =>
  match ext.pubKeyErr with
  | some e => .err ("Failed to get peer public key: " ++ e)
  | none =>
  match ext.certErr with
  | some e => .err ("Failed to generate cert: " ++ e)
  | none =>
  match ext.tlsErr with
  | some e => .err ("Failed to prepare TLS: " ++ e)
  | none =>
  match ext.tunErr with
  | some e => .err ("Failed to create TUN device: " ++ e)
  | none => .ok (resolveEndpointIP o p) 443

/-- Effects of one `AndroidTunDevice.WritePacket` call: the packet the
`PacketFlow` sink received (if any), the packet written to the raw file
handle (if any), and the returned error. -/
structure WriteOutcome where
  sinkReceived : Option (List Nat)
  fileWritten : Option (List Nat)
  err : Option String
deriving DecidableEq

/-- `AndroidTunDevice.WritePacket`: if the device was constructed with a
non-nil `PacketFlow` (`outputFn`), the packet goes to the sink and the
method returns `nil`; otherwise the packet is written to the raw file
handle and that write's error is returned. `fileWriteErr` is the error the
raw handle's write would produce. -/
def writePacket (hasSink : Bool) (pkt : List Nat) (fileWriteErr : Option String) : WriteOutcome :=
  if hasSink then
    { sinkReceived := some pkt, fileWritten := none, err := none }
  else
    { sinkReceived := none, fileWritten := some pkt, err := fileWriteErr }

/-- Progress of one run's background goroutine: `MaintainTunnel` still
executing, or how far the sequential exit path
(`tunDevice.Close()`; locked `running = false`; `OnDisconnected`) got. -/
inductive RunPhase where
  | tunnelActive
  | tunnelExited
  | closedDev
  | resetDone
  | notified
deriving DecidableEq

/-- Numeric progress of a run phase, in the order the goroutine's code
executes the steps. -/
def rank : RunPhase → Nat
  | .tunnelActive => 0
  | .tunnelExited => 1
  | .closedDev => 2
  | .resetDone => 3
  | .notified => 4

/-- Per-run record: whether a callback was supplied to this run's
`StartTunnel`, plus ghost instrumentation counting invocations of this
run's cancel handle and each step of its exit path, and recording the
value `IsRunning()` returns inside this run's `OnDisconnected` callback. -/
structure RunRecord where
  hasCb : Bool
  cancelCalls : Nat
  phase : RunPhase
  notifySawRunning : Option Bool
  closeCount : Nat
  resetCount : Nat
  notifyCount : Nat
deriving DecidableEq

/-- The shared `tunnelState` singleton (`var state = &tunnelState{}`),
with runs identified by their index in `runs` (spawn order). `cancel` and
`callbackRun` hold the run id whose handle/callback is stored, `none`
standing for Go's `nil`. -/
structure SysState where
  running : Bool
  cancel : Option Nat
  inputChan : Option Nat
  callbackRun : Option Nat
  runs : List RunRecord
deriving DecidableEq

/-- The zero value of `tunnelState`: all fields nil/false. -/
def initState : SysState :=
  { running := false, cancel := none, inputChan := none, callbackRun := none, runs := [] }

/-- Apply `f` to the record of run `r`, leaving other runs unchanged. -/
def updateRun : List RunRecord → Nat → (RunRecord → RunRecord) → List RunRecord
  | [], _, _ => []
  | rec :: rest, 0, f => f rec :: rest
  | rec :: rest, r + 1, f => rec :: updateRun rest r f

/-- `IsRunning`: lock-protected read of the running flag. -/
def isRunning (s : SysState) : Bool := s.running

/-- The lock-protected body of `StartTunnel`, given the outcome of its
synchronous portion: if already running, return the error and change
nothing; on a synchronous failure, return the collaborator's error and
change nothing; otherwise store a fresh cancel handle and the callback,
set `running`, and spawn one background run. -/
def startTunnelStep (s : SysState) (syncRes : SyncResult) (cb : Bool) : SysState × String :=
  if s.running then
    (s, "Tunnel is already running")
  else
    match syncRes with
    | .err e => (s, e)
    | .ok _ _ =>
      ({ running := true,
         cancel := some s.runs.length,
         inputChan := s.inputChan,
         callbackRun := some s.runs.length,
         runs := s.runs ++ [{ hasCb := cb, cancelCalls := 0, phase := .tunnelActive,
                              notifySawRunning := none, closeCount := 0,
                              resetCount := 0, notifyCount := 0 }] }, "")

/-- `StopTunnel`: no-op when not running; otherwise invoke the stored
cancel handle (if non-nil) and clear the running flag. The handle itself
is left in place. -/
def stopTunnel (s : SysState) : SysState :=
  if s.running then
    { s with
      running := false,
      runs := match s.cancel with
        | some r => updateRun s.runs r (fun rc => { rc with cancelCalls := rc.cancelCalls + 1 })
        | none => s.runs }
  else s

/-- `InputPacket`: reads `state.inputChan` under the lock; when non-nil it
performs a non-blocking send (delivered only if the channel has room, the
`select`/`default`), when nil it returns immediately. The result is
whether the packet was delivered to the tunnel. -/
def inputPacket (s : SysState) (chanHasRoom : Bool) : Bool :=
  match s.inputChan with
  | some _ => chanHasRoom
  | none => false

/-- Atomic actions of the interleaving semantics: the caller-side entry
points and the individual steps of a run's background goroutine. -/
inductive Act where
  | start (syncRes : SyncResult) (cb : Bool)
  | stop
  | tunnelExit (r : Nat)
  | exitClose (r : Nat)
  | exitReset (r : Nat)
  | exitNotify (r : Nat)
deriving DecidableEq

/-- One atomic step. `none` means the action is not enabled (a goroutine
step out of program order). `tunnelExit r` models run `r`'s
`api.MaintainTunnel` call returning, for any cause (cancellation, network
failure, handle revocation); the three exit-path steps then follow in
program order. `exitReset` is the stale-unaware `state.running = false`
write; `exitNotify` records the `running` value an observer calling
`IsRunning()` inside `OnDisconnected` would see. -/
def step (s : SysState) : Act → Option SysState
  | .start syncRes cb => some (startTunnelStep s syncRes cb).1
  | .stop => some (stopTunnel s)
  | .tunnelExit r =>
    match s.runs[r]? with
    | some rec =>
      if rec.phase = .tunnelActive then
        some { s with runs := updateRun s.runs r (fun rc => { rc with phase := .tunnelExited }) }
      else none
    | none => none
  | .exitClose r =>
    match s.runs[r]? with
    | some rec =>
      if rec.phase = .tunnelExited then
        some { s with runs := updateRun s.runs r (fun rc =>
          { rc with phase := .closedDev, closeCount := rc.closeCount + 1 }) }
      else none
    | none => none
  | .exitReset r =>
    match s.runs[r]? with
    | some rec =>
      if rec.phase = .closedDev then
        some { s with
          running := false,
          runs := updateRun s.runs r (fun rc =>
            { rc with phase := .resetDone, resetCount := rc.resetCount + 1 }) }
      else none
    | none => none
  | .exitNotify r =>
    match s.runs[r]? with
    | some rec =>
      if rec.phase = .resetDone then
        some { s with runs := updateRun s.runs r (fun rc =>
          { rc with phase := .notified, notifyCount := rc.notifyCount + 1,
                    notifySawRunning := some s.running }) }
      else none
    | none => none

/-- Execute a whole interleaving from the initial state; `none` when some
action was not enabled. -/
def runTrace (acts : List Act) : Option SysState :=
  List.foldlM step initState acts

theorem updateRun_length (l : List RunRecord) (r : Nat) (f : RunRecord → RunRecord) :
    (updateRun l r f).length = l.length := by
  induction l generalizing r with
  | nil => rfl
  | cons a t ih =>
    cases r with
    | zero => rfl
    | succ n => simpa [updateRun] using ih n

theorem getElem_updateRun_self (l : List RunRecord) (r : Nat) (f : RunRecord → RunRecord) :
    (updateRun l r f)[r]? = (l[r]?).map f := by
  induction l generalizing r with
  | nil => cases r <;> rfl
  | cons a t ih =>
    cases r with
    | zero => simp [updateRun]
    | succ n => simpa [updateRun] using ih n

theorem getElem_updateRun_ne (l : List RunRecord) (r r' : Nat) (f : RunRecord → RunRecord)
    (h : r' ≠ r) : (updateRun l r f)[r']? = l[r']? := by
  induction l generalizing r r' with
  | nil => rfl
  | cons a t ih =>
    cases r with
    | zero =>
      cases r' with
      | zero => exact absurd rfl h
      | succ m => simp [updateRun]
    | succ n =>
      cases r' with
      | zero => simp [updateRun]
      | succ m =>
        simp only [updateRun, List.getElem?_cons_succ]
        exact ih n m (fun e => h (by rw [e]))

theorem getElem_append_single (l : List RunRecord) (x : RunRecord) (r : Nat) :
    (l ++ [x])[r]? = if r < l.length then l[r]? else if r = l.length then some x else none := by
  induction l generalizing r with
  | nil =>
    cases r with
    | zero => rfl
    | succ n => simp
  | cons a t ih =>
    cases r with
    | zero => simp
    | succ n =>
      simp only [List.cons_append, List.getElem?_cons_succ, List.length_cons, ih n,
        Nat.succ_lt_succ_iff, Nat.succ_inj]

theorem lt_length_of_getElem_some (l : List RunRecord) (r : Nat) (rec : RunRecord)
    (h : l[r]? = some rec) : r < l.length := by
  induction l generalizing r with
  | nil => simp at h
  | cons a t ih =>
    cases r with
    | zero => simp
    | succ n =>
      simp only [List.getElem?_cons_succ] at h
      exact Nat.succ_lt_succ (ih n h)

/-- Per-run ghost invariant: each exit-path step has happened exactly once
iff the run's phase has passed it, and the disconnect callback can have
observed `IsRunning() = true` only when a strictly newer run exists. -/
def runInv (len r : Nat) (rec : RunRecord) : Prop :=
  rec.closeCount = (if 2 ≤ rank rec.phase then 1 else 0) ∧
  rec.resetCount = (if 3 ≤ rank rec.phase then 1 else 0) ∧
  rec.notifyCount = (if 4 ≤ rank rec.phase then 1 else 0) ∧
  (rec.notifySawRunning = some true → r + 2 ≤ len)

/-- Global invariant of the coordinator state, preserved by every step. -/
structure Inv (s : SysState) : Prop where
  inputNil : s.inputChan = none
  cancelStored : s.running = true → s.cancel.isSome = true
  runsInv : ∀ r rec, s.runs[r]? = some rec → runInv s.runs.length r rec
  newerRun : s.running = true → ∀ r rec, s.runs[r]? = some rec →
    3 ≤ rank rec.phase → r + 2 ≤ s.runs.length

theorem inv_init : Inv initState := by
  refine ⟨rfl, by simp [initState], ?_, ?_⟩
  · intro r rec h
    simp [initState] at h
  · intro _ r rec h
    simp [initState] at h

/-- The record a fresh run is spawned with. -/
def newRun (cb : Bool) : RunRecord :=
  { hasCb := cb, cancelCalls := 0, phase := .tunnelActive,
    notifySawRunning := none, closeCount := 0, resetCount := 0, notifyCount := 0 }

theorem startTunnelStep_running {s : SysState} (hr : s.running = true)
    (syncRes : SyncResult) (cb : Bool) :
    startTunnelStep s syncRes cb = (s, "Tunnel is already running") := by
  simp [startTunnelStep, hr]

theorem startTunnelStep_err {s : SysState} (hr : s.running = false) (e : String) (cb : Bool) :
    startTunnelStep s (.err e) cb = (s, e) := by
  simp [startTunnelStep, hr]

theorem startTunnelStep_ok {s : SysState} (hr : s.running = false)
    (ip : String) (port : Nat) (cb : Bool) :
    startTunnelStep s (.ok ip port) cb =
      ({ running := true, cancel := some s.runs.length, inputChan := s.inputChan,
         callbackRun := some s.runs.length, runs := s.runs ++ [newRun cb] }, "") := by
  simp [startTunnelStep, hr, newRun]

theorem inv_step {s s' : SysState} {a : Act} (hInv : Inv s) (h : step s a = some s') :
    Inv s' := by
  cases a with
  | start syncRes cb =>
    simp only [step, Option.some.injEq] at h
    subst h
    cases hr : s.running with
    | true =>
      rw [startTunnelStep_running hr]
      exact hInv
    | false =>
      cases syncRes with
      | err e =>
        rw [startTunnelStep_err hr]
        exact hInv
      | ok ip port =>
        rw [startTunnelStep_ok hr]
        refine ⟨hInv.inputNil, by simp, ?_, ?_⟩
        · intro r rec hget
          simp only [getElem_append_single] at hget
          by_cases h1 : r < s.runs.length
          · rw [if_pos h1] at hget
            have old := hInv.runsInv r rec hget
            refine ⟨old.1, old.2.1, old.2.2.1, ?_⟩
            intro hsaw
            have := old.2.2.2 hsaw
            simp only [List.length_append, List.length_cons, List.length_nil]
            omega
          · rw [if_neg h1] at hget
            by_cases h2 : r = s.runs.length
            · rw [if_pos h2, Option.some.injEq] at hget
              subst hget
              refine ⟨by simp [newRun, rank], by simp [newRun, rank],
                by simp [newRun, rank], ?_⟩
              intro hsaw
              simp [newRun] at hsaw
            · rw [if_neg h2] at hget
              exact absurd hget (by simp)
        · intro _ r rec hget h3
          simp only [getElem_append_single] at hget
          by_cases h1 : r < s.runs.length
          · simp only [List.length_append, List.length_cons, List.length_nil]
            omega
          · rw [if_neg h1] at hget
            by_cases h2 : r = s.runs.length
            · rw [if_pos h2, Option.some.injEq] at hget
              subst hget
              simp [newRun, rank] at h3
            · rw [if_neg h2] at hget
              exact absurd hget (by simp)
  | stop =>
    simp only [step, Option.some.injEq] at h
    subst h
    cases hr : s.running with
    | false =>
      simpa [stopTunnel, hr] using hInv
    | true =>
      simp only [stopTunnel, hr, if_true]
      cases hc : s.cancel with
      | none =>
        refine ⟨hInv.inputNil, by simp, ?_, by simp⟩
        intro r rec hget
        exact hInv.runsInv r rec hget
      | some rc =>
        refine ⟨hInv.inputNil, by simp, ?_, by simp⟩
        intro r rec hget
        simp only [updateRun_length]
        by_cases hrr : r = rc
        · subst hrr
          rw [getElem_updateRun_self] at hget
          cases hg2 : s.runs[r]? with
          | none => rw [hg2] at hget; exact absurd hget (by simp)
          | some rec0 =>
            rw [hg2, Option.map_some'] at hget
            have hget' := Option.some.inj hget
            subst hget'
            have old := hInv.runsInv r rec0 hg2
            exact ⟨old.1, old.2.1, old.2.2.1, old.2.2.2⟩
        · rw [getElem_updateRun_ne _ _ _ _ hrr] at hget
          exact hInv.runsInv r rec hget
  | tunnelExit r =>
    simp only [step] at h
    cases hget : s.runs[r]? with
    | none => rw [hget] at h; exact absurd h (by simp)
    | some rec =>
      rw [hget] at h
      dsimp only at h
      by_cases hph : rec.phase = .tunnelActive
      · rw [if_pos hph, Option.some.injEq] at h
        subst h
        have old := hInv.runsInv r rec hget
        simp only [runInv] at old
        rw [hph] at old
        norm_num [rank] at old
        refine ⟨hInv.inputNil, hInv.cancelStored, ?_, ?_⟩
        · intro r' rec' hget'
          simp only [updateRun_length]
          by_cases hrr : r' = r
          · subst hrr
            rw [getElem_updateRun_self, hget, Option.map_some'] at hget'
            have he := Option.some.inj hget'
            subst he
            obtain ⟨o1, o2, o3, o4⟩ := old
            simp only [runInv]
            refine ⟨by simp [rank, o1], by simp [rank, o2], by simp [rank, o3], ?_⟩
            intro hsaw
            exact o4 hsaw
          · rw [getElem_updateRun_ne _ _ _ _ hrr] at hget'
            exact hInv.runsInv r' rec' hget'
        · intro hRun r' rec' hget'
          simp only [updateRun_length]
          by_cases hrr : r' = r
          · subst hrr
            rw [getElem_updateRun_self, hget, Option.map_some'] at hget'
            have he := Option.some.inj hget'
            subst he
            intro h3
            simp [rank] at h3
          · rw [getElem_updateRun_ne _ _ _ _ hrr] at hget'
            exact hInv.newerRun hRun r' rec' hget'
      · rw [if_neg hph] at h
        exact absurd h (by simp)
  | exitClose r =>
    simp only [step] at h
    cases hget : s.runs[r]? with
    | none => rw [hget] at h; exact absurd h (by simp)
    | some rec =>
      rw [hget] at h
      dsimp only at h
      by_cases hph : rec.phase = .tunnelExited
      · rw [if_pos hph, Option.some.injEq] at h
        subst h
        have old := hInv.runsInv r rec hget
        simp only [runInv] at old
        rw [hph] at old
        norm_num [rank] at old
        refine ⟨hInv.inputNil, hInv.cancelStored, ?_, ?_⟩
        · intro r' rec' hget'
          simp only [updateRun_length]
          by_cases hrr : r' = r
          · subst hrr
            rw [getElem_updateRun_self, hget, Option.map_some'] at hget'
            have he := Option.some.inj hget'
            subst he
            obtain ⟨o1, o2, o3, o4⟩ := old
            simp only [runInv]
            refine ⟨by simp [rank, o1], by simp [rank, o2], by simp [rank, o3], ?_⟩
            intro hsaw
            exact o4 hsaw
          · rw [getElem_updateRun_ne _ _ _ _ hrr] at hget'
            exact hInv.runsInv r' rec' hget'
        · intro hRun r' rec' hget'
          simp only [updateRun_length]
          by_cases hrr : r' = r
          · subst hrr
            rw [getElem_updateRun_self, hget, Option.map_some'] at hget'
            have he := Option.some.inj hget'
            subst he
            intro h3
            simp [rank] at h3
          · rw [getElem_updateRun_ne _ _ _ _ hrr] at hget'
            exact hInv.newerRun hRun r' rec' hget'
      · rw [if_neg hph] at h
        exact absurd h (by simp)
  | exitReset r =>
    simp only [step] at h
    cases hget : s.runs[r]? with
    | none => rw [hget] at h; exact absurd h (by simp)
    | some rec =>
      rw [hget] at h
      dsimp only at h
      by_cases hph : rec.phase = .closedDev
      · rw [if_pos hph, Option.some.injEq] at h
        subst h
        have old := hInv.runsInv r rec hget
        simp only [runInv] at old
        rw [hph] at old
        norm_num [rank] at old
        refine ⟨hInv.inputNil, by simp, ?_, by simp⟩
        intro r' rec' hget'
        simp only [updateRun_length]
        by_cases hrr : r' = r
        · subst hrr
          rw [getElem_updateRun_self, hget, Option.map_some'] at hget'
          have he := Option.some.inj hget'
          subst he
          obtain ⟨o1, o2, o3, o4⟩ := old
          simp only [runInv]
          refine ⟨by simp [rank, o1], by simp [rank, o2], by simp [rank, o3], ?_⟩
          intro hsaw
          exact o4 hsaw
        · rw [getElem_updateRun_ne _ _ _ _ hrr] at hget'
          exact hInv.runsInv r' rec' hget'
      · rw [if_neg hph] at h
        exact absurd h (by simp)
  | exitNotify r =>
    simp only [step] at h
    cases hget : s.runs[r]? with
    | none => rw [hget] at h; exact absurd h (by simp)
    | some rec =>
      rw [hget] at h
      dsimp only at h
      by_cases hph : rec.phase = .resetDone
      · rw [if_pos hph, Option.some.injEq] at h
        subst h
        have old := hInv.runsInv r rec hget
        simp only [runInv] at old
        rw [hph] at old
        norm_num [rank] at old
        refine ⟨hInv.inputNil, hInv.cancelStored, ?_, ?_⟩
        · intro r' rec' hget'
          simp only [updateRun_length]
          by_cases hrr : r' = r
          · subst hrr
            rw [getElem_updateRun_self, hget, Option.map_some'] at hget'
            have he := Option.some.inj hget'
            subst he
            obtain ⟨o1, o2, o3, o4⟩ := old
            simp only [runInv]
            refine ⟨by simp [rank, o1], by simp [rank, o2], by simp [rank, o3], ?_⟩
            intro hsaw
            have hRun : s.running = true := by
              have h2 : some s.running = some true := hsaw
              exact Option.some.inj h2
            exact hInv.newerRun hRun r' rec hget (by rw [hph]; simp [rank])
          · rw [getElem_updateRun_ne _ _ _ _ hrr] at hget'
            exact hInv.runsInv r' rec' hget'
        · intro hRun r' rec' hget'
          simp only [updateRun_length]
          by_cases hrr : r' = r
          · subst hrr
            intro _
            exact hInv.newerRun hRun r' rec hget (by rw [hph]; simp [rank])
          · rw [getElem_updateRun_ne _ _ _ _ hrr] at hget'
            exact hInv.newerRun hRun r' rec' hget'
      · rw [if_neg hph] at h
        exact absurd h (by simp)

theorem inv_foldl (acts : List Act) : ∀ s₀ s : SysState, Inv s₀ →
    List.foldlM step s₀ acts = some s → Inv s := by
  induction acts with
  | nil =>
    intro s₀ s h0 h
    simp only [List.foldlM] at h
    cases h
    exact h0
  | cons a rest ih =>
    intro s₀ s h0 h
    simp only [List.foldlM] at h
    cases hst : step s₀ a with
    | none => rw [hst] at h; exact absurd h (by simp)
    | some s₁ =>
      rw [hst] at h
      exact ih s₁ s (inv_step h0 hst) h

/-- Every state reachable by a valid interleaving satisfies the invariant. -/
theorem runTrace_inv {acts : List Act} {s : SysState} (h : runTrace acts = some s) : Inv s :=
  inv_foldl acts initState s inv_init h

theorem stopTunnel_notRunning {s : SysState} (hr : s.running = false) : stopTunnel s = s := by
  simp [stopTunnel, hr]

theorem stopTunnel_running_cancel {s : SysState} {r : Nat} (hr : s.running = true)
    (hc : s.cancel = some r) :
    stopTunnel s =
      { s with
        running := false,
        runs := updateRun s.runs r (fun rc =>
          { rc with cancelCalls := rc.cancelCalls + 1 }) } := by
  simp [stopTunnel, hr, hc]

/-- A successful synchronous outcome used to build concrete traces. -/
def okSync : SyncResult := SyncResult.ok "162.159.198.2" 443

/-- The state right after one successful `StartTunnel` from the initial
state: one active run, handle and callback stored. -/
def exampleRunningState : SysState :=
  { running := true, cancel := some 0, inputChan := none, callbackRun := some 0,
    runs := [newRun true] }

/-- The state after `StartTunnel` followed by `StopTunnel`: not running,
the run's cancel handle invoked once but still stored. -/
def stoppedState : SysState :=
  { running := false, cancel := some 0, inputChan := none, callbackRun := some 0,
    runs := [{ hasCb := true, cancelCalls := 1, phase := .tunnelActive,
               notifySawRunning := none, closeCount := 0, resetCount := 0, notifyCount := 0 }] }

/-- StartTunnel; StopTunnel. -/
def stopOnlyTrace : List Act := [Act.start okSync true, Act.stop]

/-- StartTunnel; StopTunnel; a second successful StartTunnel; then the
first run's `MaintainTunnel` finally returns (it was cancelled) and its
exit path runs up to and including the `state.running = false` write. -/
def staleResetTrace : List Act :=
  [Act.start okSync true, Act.stop, Act.start okSync true,
   Act.tunnelExit 0, Act.exitClose 0, Act.exitReset 0]

/-- StartTunnel; StopTunnel; the run's teardown proceeds through close and
reset, but a second successful StartTunnel sneaks in before the first
run's `OnDisconnected` callback fires. -/
def lateNotifyTrace : List Act :=
  [Act.start okSync true, Act.stop, Act.tunnelExit 0, Act.exitClose 0,
   Act.exitReset 0, Act.start okSync true, Act.exitNotify 0]

/-- StartTunnel; StopTunnel; the run's full teardown with no interleaving. -/
def fullTeardownTrace : List Act :=
  [Act.start okSync true, Act.stop, Act.tunnelExit 0, Act.exitClose 0,
   Act.exitReset 0, Act.exitNotify 0]

/-- The run record after a full undisturbed teardown: each exit-path step
done once, and the disconnect callback observed `IsRunning() = false`. -/
def tornDownRun : RunRecord :=
  { hasCb := true, cancelCalls := 1, phase := .notified, notifySawRunning := some false,
    closeCount := 1, resetCount := 1, notifyCount := 1 }

/-- The state reached by `fullTeardownTrace`. -/
def tornDownState : SysState :=
  { running := false, cancel := some 0, inputChan := none, callbackRun := some 0,
    runs := [tornDownRun] }

/-- C1: the claim says `IsRunning()` is true iff the most recent
`StartTunnel` succeeded and no later `StopTunnel`/transport-exit of that
run completed, even when an old run's background exit path races a new
run. The code violates this: in the interleaving `staleResetTrace` the
second run is still active (its `MaintainTunnel` has not returned, no
`StopTunnel` followed its start), yet the first run's stale exit path has
unconditionally written `state.running = false`, so `IsRunning()` reports
false for a live tunnel. -/
theorem staleExitPathClobbersNewRun :
    (runTrace staleResetTrace).map
        (fun s => (isRunning s, (s.runs[1]?).map RunRecord.phase))
      = some (false, some RunPhase.tunnelActive) := by
  rfl

/-- C2 counterexample: after `StartTunnel; StopTunnel` the tunnel is not
running but the cancellation handle is still stored (`StopTunnel` never
sets `state.cancel = nil`), so the claimed iff between a non-null handle
and the running flag fails, as does the claim that the handle is null
again after `StopTunnel`. -/
theorem cancelHandleNotClearedAfterStop :
    (runTrace stopOnlyTrace).map (fun s => (s.running, s.cancel))
      = some (false, some 0) := by
  rfl

/-- C2 amended: in every reachable state, if `running` is true the
cancellation handle is non-null; the converse fails because `StopTunnel`
leaves the handle in place (it never changes `state.cancel`). -/
theorem runningImpliesCancelStored (acts : List Act) (s : SysState)
    (h : runTrace acts = some s) :
    (s.running = true → s.cancel.isSome = true) ∧ (stopTunnel s).cancel = s.cancel := by
  refine ⟨(runTrace_inv h).cancelStored, ?_⟩
  cases hr : s.running with
  | false => rw [stopTunnel_notRunning hr]
  | true =>
    cases hc : s.cancel with
    | none => simp [stopTunnel, hr, hc]
    | some r =>
      rw [stopTunnel_running_cancel hr hc]
      exact hc

theorem runningImpliesCancelStoredWitness :
    (stoppedState.running = true → stoppedState.cancel.isSome = true) ∧
      (stopTunnel stoppedState).cancel = stoppedState.cancel :=
  runningImpliesCancelStored stopOnlyTrace stoppedState (by rfl)

/-- C3: endpoint resolution at `StartTunnel` follows the priority policy
stated in the spec (custom override if non-empty, else profile default,
per the IPv6 preference), and the resolved port is always 443. -/
theorem endpointResolutionMatchesPolicy (o : ConnOptions) (p : Profile) :
    resolveEndpoint o p = resolveEndpointSpec o p ∧ (resolveEndpoint o p).2 = 443 := by
  refine ⟨?_, rfl⟩
  unfold resolveEndpoint resolveEndpointIP resolveEndpointSpec
  cases hu : o.useIPv6 with
  | false =>
    by_cases h4 : o.customEndpointV4 = "" <;> simp [h4]
  | true =>
    by_cases h6 : o.customEndpointV6 = "" <;> simp [h6]

/-- C4 counterexample: with every collaborator succeeding, the default
options (no overrides, IPv4 preferred) and a profile whose default
addresses are empty, `StartTunnel`'s synchronous portion does NOT return a
configuration error; it proceeds with the empty address string (which
`net.ParseIP` maps to a nil IP). -/
theorem emptyEndpointsYieldNoError :
    startTunnelSync extAllOk initialOptions { endpointV4 := "", endpointV6 := "" }
        = SyncResult.ok "" 443 ∧
      (startTunnelSync extAllOk initialOptions
        { endpointV4 := "", endpointV6 := "" }).isErr = false := by
  exact ⟨rfl, rfl⟩

/-- C4 amended: when the applicable custom override and profile default
are both empty (and the earlier synchronous steps succeed), `StartTunnel`
does not report a configuration error: endpoint selection has no emptiness
check, so it proceeds to spawn the tunnel with the empty address, which
parses to a nil IP. -/
theorem emptyEndpointsProceedWithEmptyAddress (ext : ExtOutcomes) (o : ConnOptions)
    (p : Profile) (hok : ext.allOk)
    (h4c : o.useIPv6 = false → o.customEndpointV4 = "" ∧ p.endpointV4 = "")
    (h6c : o.useIPv6 = true → o.customEndpointV6 = "" ∧ p.endpointV6 = "") :
    startTunnelSync ext o p = SyncResult.ok "" 443 := by
  obtain ⟨h1, h2, h3, h4, h5, h6⟩ := hok
  unfold startTunnelSync
  rw [h1, h2, h3, h4, h5, h6]
  dsimp only
  unfold resolveEndpointIP
  cases hu : o.useIPv6 with
  | false =>
    obtain ⟨ha, hb⟩ := h4c hu
    simp [ha, hb]
  | true =>
    obtain ⟨ha, hb⟩ := h6c hu
    simp [ha, hb]

theorem emptyEndpointsProceedWitness :
    startTunnelSync extAllOk initialOptions { endpointV4 := "", endpointV6 := "" }
      = SyncResult.ok "" 443 :=
  emptyEndpointsProceedWithEmptyAddress extAllOk initialOptions
    { endpointV4 := "", endpointV6 := "" }
    ⟨rfl, rfl, rfl, rfl, rfl, rfl⟩ (fun _ => ⟨rfl, rfl⟩) (fun _ => ⟨rfl, rfl⟩)

/-- C5: calling `StartTunnel` while the tunnel is running returns exactly
the error "Tunnel is already running" and leaves the whole state
untouched: same flag, same handle, same callback, and no new background
run appended. -/
theorem startWhileRunningRejectedNoSideEffects (s : SysState) (syncRes : SyncResult)
    (cb : Bool) (hr : s.running = true) :
    startTunnelStep s syncRes cb = (s, "Tunnel is already running") :=
  startTunnelStep_running hr syncRes cb

theorem startWhileRunningRejectedWitness :
    startTunnelStep exampleRunningState (SyncResult.ok "162.159.198.2" 443) true
      = (exampleRunningState, "Tunnel is already running") :=
  startWhileRunningRejectedNoSideEffects exampleRunningState
    (SyncResult.ok "162.159.198.2" 443) true rfl

/-- C6: `StopTunnel` on an idle coordinator is a no-op; on a running one
it clears the running flag immediately, bumps the stored run's
cancel-invocation count by exactly one, leaves every run's exit-path
progress untouched (it does not wait for teardown), and a second
`StopTunnel` changes nothing further. -/
theorem stopTunnelSpec (s : SysState) :
    (s.running = false → stopTunnel s = s) ∧
    (s.running = true →
      (stopTunnel s).running = false ∧
      (∀ r rec, s.cancel = some r → s.runs[r]? = some rec →
        (stopTunnel s).runs[r]? = some { rec with cancelCalls := rec.cancelCalls + 1 }) ∧
      (∀ rr : Nat, ((stopTunnel s).runs[rr]?).map RunRecord.phase
        = (s.runs[rr]?).map RunRecord.phase) ∧
      stopTunnel (stopTunnel s) = stopTunnel s) := by
  constructor
  · intro hr
    exact stopTunnel_notRunning hr
  · intro hr
    have hrun : (stopTunnel s).running = false := by
      cases hc : s.cancel with
      | none => simp [stopTunnel, hr, hc]
      | some r => rw [stopTunnel_running_cancel hr hc]
    refine ⟨hrun, ?_, ?_, stopTunnel_notRunning hrun⟩
    · intro r rec hc hget
      rw [stopTunnel_running_cancel hr hc]
      dsimp only
      rw [getElem_updateRun_self, hget, Option.map_some']
    · intro rr
      cases hc : s.cancel with
      | none => simp [stopTunnel, hr, hc]
      | some r =>
        rw [stopTunnel_running_cancel hr hc]
        dsimp only
        by_cases hrr : rr = r
        · subst hrr
          rw [getElem_updateRun_self]
          cases s.runs[rr]? <;> rfl
        · rw [getElem_updateRun_ne s.runs r rr
            (fun rc => { rc with cancelCalls := rc.cancelCalls + 1 }) hrr]

theorem stopTunnelSpecWitness :
    stopTunnel stoppedState = stoppedState ∧
      (stopTunnel exampleRunningState).running = false ∧
      (stopTunnel exampleRunningState).runs[0]?
        = some { newRun true with cancelCalls := 1 } :=
  ⟨(stopTunnelSpec stoppedState).1 rfl,
   ((stopTunnelSpec exampleRunningState).2 rfl).1,
   ((stopTunnelSpec exampleRunningState).2 rfl).2.1 0 (newRun true) rfl rfl⟩

/-- C7: `WritePacket` with a sink delivers the packet to the sink, never
touches the raw handle, and returns nil no matter what error a raw write
would have produced; without a sink it writes the packet to the raw
handle and returns that write's error. -/
theorem writePacketRedirection (pkt : List Nat) (e : Option String) :
    writePacket true pkt e
        = { sinkReceived := some pkt, fileWritten := none, err := none } ∧
      writePacket false pkt e
        = { sinkReceived := none, fileWritten := some pkt, err := e } :=
  ⟨rfl, rfl⟩

/-- C8 counterexample: in the interleaving `lateNotifyTrace`, a new
`StartTunnel` succeeds between the first run's `running = false` reset and
its `OnDisconnected` callback; the observer inside that callback then sees
`IsRunning() = true`, contradicting the claim that it always sees false. -/
theorem observerCanSeeRunningInsideDisconnect :
    ((runTrace lateNotifyTrace).bind (fun s => s.runs[0]?)).map
        (fun rec => (rec.hasCb, rec.notifySawRunning)) = some (true, some true) := by
  rfl

/-- C8 amended: in every reachable state, each step of a run's exit path
(adapter close, running reset, disconnect notification) has executed
exactly once iff the run's phase has passed it — so the notification fires
only after the close and the reset, once per run, for any exit cause — and
the observer inside `OnDisconnected` can have seen `IsRunning() = true`
only when a strictly newer run had already been started. -/
theorem exitPathOncePerRunOrdered (acts : List Act) (s : SysState) (r : Nat)
    (rec : RunRecord) (h : runTrace acts = some s) (hget : s.runs[r]? = some rec) :
    rec.closeCount = (if 2 ≤ rank rec.phase then 1 else 0) ∧
    rec.resetCount = (if 3 ≤ rank rec.phase then 1 else 0) ∧
    rec.notifyCount = (if 4 ≤ rank rec.phase then 1 else 0) ∧
    (rec.notifySawRunning = some true → r + 2 ≤ s.runs.length) :=
  (runTrace_inv h).runsInv r rec hget

theorem exitPathOncePerRunOrderedWitness :
    tornDownRun.closeCount = (if 2 ≤ rank tornDownRun.phase then 1 else 0) ∧
    tornDownRun.resetCount = (if 3 ≤ rank tornDownRun.phase then 1 else 0) ∧
    tornDownRun.notifyCount = (if 4 ≤ rank tornDownRun.phase then 1 else 0) ∧
    (tornDownRun.notifySawRunning = some true → 0 + 2 ≤ tornDownState.runs.length) :=
  exitPathOncePerRunOrdered fullTeardownTrace tornDownState 0 tornDownRun (by rfl) (by rfl)

/-- C9: after `ResetConnectionOptions`, the getters return exactly the
default tuple: SNI is the default hostname, both endpoint overrides are
empty, and the IPv6 preference is off. -/
theorem resetOptionsDefaults (o : ConnOptions) :
    getSNI (resetConnectionOptions o) = "www.visa.cn" ∧
    (resetConnectionOptions o).customEndpointV4 = "" ∧
    (resetConnectionOptions o).customEndpointV6 = "" ∧
    getUseIPv6 (resetConnectionOptions o) = false :=
  ⟨rfl, rfl, rfl, rfl⟩

/-- C10: no operation in the package ever assigns `state.inputChan`, so in
every reachable state the channel is nil and `InputPacket` returns without
delivering the packet, whatever the channel capacity situation. -/
theorem inputChanAlwaysNil (acts : List Act) (s : SysState) (chanHasRoom : Bool)
    (h : runTrace acts = some s) :
    s.inputChan = none ∧ inputPacket s chanHasRoom = false := by
  have hi := (runTrace_inv h).inputNil
  exact ⟨hi, by simp [inputPacket, hi]⟩

theorem inputChanAlwaysNilWitness :
    exampleRunningState.inputChan = none ∧ inputPacket exampleRunningState true = false :=
  inputChanAlwaysNil [Act.start okSync true] exampleRunningState true (by rfl)

end UsqueAndroid
